import Mathlib

set_option linter.unusedVariables false
set_option maxRecDepth 20000

/-!
Verification development for a POP3 mail client library (Rust).

The embedding works at the byte level: Rust `String` / `&str` values are
modelled as `List Nat` of their bytes (all protocol data is ASCII, where
`String::from_utf8_lossy` is the identity), and the TLS byte stream feeding
`std::io::Read::read` is modelled as the list of chunks that successive
`read` calls deliver.  An exhausted stream makes the reader loops in
`reader.rs` spin forever (a `read` that returns `0` leaves the buffer
unchanged), modelled by the `blocked` outcome; a slice-index panic is
modelled by the `crashed` outcome.
-/

namespace Pop3

/-- Rust `str::starts_with` on byte lists: `leadsWith p s` is true iff `p` is an
initial segment of `s`. -/
def leadsWith : List Nat → List Nat → Bool
  | [], _ => true
  | _ :: _, [] => false
  | p :: ps, c :: cs => p == c && leadsWith ps cs

/-- Whitespace test used by Rust `str::trim` (`char::is_whitespace`), restricted
to the ASCII range of our byte-level model: HT, LF, VT, FF, CR, SP. -/
def isWs (c : Nat) : Bool :=
  c == 9 || c == 10 || c == 11 || c == 12 || c == 13 || c == 32

/-- Leading-whitespace removal: the front half of Rust `str::trim`. -/
def trimFront (s : List Nat) : List Nat := s.dropWhile isWs

/-- Rust `str::trim`: strip whitespace from both ends. -/
def trim (s : List Nat) : List Nat := ((trimFront s).reverse.dropWhile isWs).reverse

/-- Fuel-driven worker for `replaceAll`.  The fuel (initially the length of the
string) only serves to make the recursion structural; it never runs out,
because each step consumes at least one byte of the string. -/
def replaceAllF (pat rep : List Nat) : Nat → List Nat → List Nat
  | _, [] => []
  | 0, s => s
  | fuel + 1, c :: rest =>
    if pat ≠ [] ∧ leadsWith pat (c :: rest) = true then
      rep ++ replaceAllF pat rep fuel (rest.drop (pat.length - 1))
    else
      c :: replaceAllF pat rep fuel rest

/-- Rust `str::replace(pat, rep)` for a nonempty pattern: replace the
non-overlapping occurrences of `pat`, scanning left to right. -/
def replaceAll (pat rep s : List Nat) : List Nat := replaceAllF pat rep s.length s

/-- `containsOccur pat s` is true iff `pat` occurs as a contiguous run inside
`s` (Rust `str::contains` for a nonempty pattern). -/
def containsOccur (pat : List Nat) : List Nat → Bool
  | [] => leadsWith pat []
  | c :: rest => leadsWith pat (c :: rest) || containsOccur pat rest

/-- Rust `str::split(sep)` for a one-byte separator: splits into the parts
between separators, keeping empty parts. -/
def splitOnByte (b : Nat) : List Nat → List (List Nat)
  | [] => [[]]
  | c :: rest =>
    if c == b then [] :: splitOnByte b rest
    else
      match splitOnByte b rest with
      | [] => [[c]]
      | h :: t => (c :: h) :: t

instance {ε α : Type} [DecidableEq ε] [DecidableEq α] : DecidableEq (Except ε α) := fun x y =>
  match x, y with
  | Except.error a, Except.error b =>
    if h : a = b then isTrue (by rw [h]) else isFalse (by intro hc; cases hc; exact h rfl)
  | Except.error a, Except.ok b => isFalse (by intro hc; cases hc)
  | Except.ok a, Except.error b => isFalse (by intro hc; cases hc)
  | Except.ok a, Except.ok b =>
    if h : a = b then isTrue (by rw [h]) else isFalse (by intro hc; cases hc; exact h rfl)

/-- Outcome of running a reader loop (or a client command) against a modelled
byte stream: `done v rest` returns value `v` leaving chunks `rest` unread,
`blocked` means the stream was exhausted and the loop spins forever,
`crashed` means a Rust panic (out-of-bounds slice). -/
inductive Run (α : Type) where
  | done (val : α) (rest : List (List Nat))
  | blocked
  | crashed
deriving DecidableEq

/-- reader.rs `read`: accumulate chunks, filtering out NUL padding, until the
buffer has at least 2 bytes and ends with LF (10). -/
def readLoop : List (List Nat) → List Nat → Run (List Nat)
  | [], buf =>
    if buf.length < 2 ∨ buf.getLast? ≠ some 10 then Run.blocked
    else Run.done buf []
  | c :: rest, buf =>
    if buf.length < 2 ∨ buf.getLast? ≠ some 10 then
      readLoop rest ((buf ++ c).filter (fun v => v != 0))
    else Run.done buf (c :: rest)

/-- reader.rs `is_err`: first byte is a hyphen (45). -/
def is_err (b : List Nat) : Bool := b.head? == some 45

/-- reader.rs `ends_with_sole_period_and_newline`: the buffer ends with
`LF . LF` ([10,46,10]) or `CR LF . CR LF` ([13,10,46,13,10]).  The source
slices `buffer[len-3..]` and `buffer[len-5..]` unconditionally, which panics
whenever the buffer is shorter than 5 bytes; `none` models that panic. -/
def ends_with_sole_period_and_newline (b : List Nat) : Option Bool :=
  if 5 ≤ b.length then
    some ((b.drop (b.length - 3) == [10, 46, 10]) ||
          (b.drop (b.length - 5) == [13, 10, 46, 13, 10]))
  else none

/-- The loop guard of reader.rs `read_all`, with Rust's short-circuit order:
continue (`some false`) while `len < 3`; otherwise evaluate the terminator
test (panic propagates as `none`) and stop (`some true`) when the buffer ends
with the terminator or starts with a hyphen. -/
def multiStop (buf : List Nat) : Option Bool :=
  if buf.length < 3 then some false
  else
    match ends_with_sole_period_and_newline buf with
    | none => none
    | some e => some (e || is_err buf)

/-- reader.rs `read_all`: accumulate chunks (filtering NUL padding) until
`multiStop` fires. -/
def readAllLoop : List (List Nat) → List Nat → Run (List Nat)
  | [], buf =>
    match multiStop buf with
    | none => Run.crashed
    | some true => Run.done buf []
    | some false => Run.blocked
  | c :: rest, buf =>
    match multiStop buf with
    | none => Run.crashed
    | some true => Run.done buf (c :: rest)
    | some false => readAllLoop rest ((buf ++ c).filter (fun v => v != 0))

def OK_RESPONSE_START : List Nat := [43, 79, 75]  -- "+OK"

def ERR_RESPONSE_START : List Nat := [45, 69, 82, 82]  -- "-ERR"

def CRLF : List Nat := [13, 10]  -- "\r\n"

-- "unexpected response: "
def UNEXPECTED_RESPONSE : List Nat :=
  [117, 110, 101, 120, 112, 101, 99, 116, 101, 100, 32, 114, 101, 115, 112,
   111, 110, 115, 101, 58, 32]

/-- reader.rs `translate_string_response`: classify a raw reply.  On `+OK` the
status token is removed everywhere (Rust `replace` replaces all occurrences)
and the result trimmed; on `-ERR` the token and all `\r\n` pairs are removed
and the result trimmed; anything else is an `unexpected response` error. -/
def translate_string_response (response : List Nat) : Except (List Nat) (List Nat) :=
  if leadsWith OK_RESPONSE_START response then
    Except.ok (trim (replaceAll OK_RESPONSE_START [] response))
  else if leadsWith ERR_RESPONSE_START response then
    Except.error (trim (replaceAll CRLF [] (replaceAll ERR_RESPONSE_START [] response)))
  else
    Except.error (UNEXPECTED_RESPONSE ++ response)

/-- reader.rs `read_response`: frame a single-line reply then classify it. -/
def read_response (chunks : List (List Nat)) : Run (Except (List Nat) (List Nat)) :=
  match readLoop chunks [] with
  | Run.done buf rest => Run.done (translate_string_response buf) rest
  | Run.blocked => Run.blocked
  | Run.crashed => Run.crashed

/-- reader.rs `read_multi_response`: frame a multi-line reply then classify it. -/
def read_multi_response (chunks : List (List Nat)) : Run (Except (List Nat) (List Nat)) :=
  match readAllLoop chunks [] with
  | Run.done buf rest => Run.done (translate_string_response buf) rest
  | Run.blocked => Run.blocked
  | Run.crashed => Run.crashed

/-- Rust `std::num::ParseIntError` kinds reachable from `i32::from_str`. -/
inductive ParseIntError where
  | empty
  | invalidDigit
  | posOverflow
  | negOverflow
deriving DecidableEq

-- "cannot parse integer from empty string"
def PIE_EMPTY_MSG : List Nat :=
  [99, 97, 110, 110, 111, 116, 32, 112, 97, 114, 115, 101, 32, 105, 110, 116,
   101, 103, 101, 114, 32, 102, 114, 111, 109, 32, 101, 109, 112, 116, 121,
   32, 115, 116, 114, 105, 110, 103]

-- "invalid digit found in string"
def PIE_INVALID_MSG : List Nat :=
  [105, 110, 118, 97, 108, 105, 100, 32, 100, 105, 103, 105, 116, 32, 102,
   111, 117, 110, 100, 32, 105, 110, 32, 115, 116, 114, 105, 110, 103]

-- "number too large to fit in target type"
def PIE_POS_MSG : List Nat :=
  [110, 117, 109, 98, 101, 114, 32, 116, 111, 111, 32, 108, 97, 114, 103,
   101, 32, 116, 111, 32, 102, 105, 116, 32, 105, 110, 32, 116, 97, 114,
   103, 101, 116, 32, 116, 121, 112, 101]

-- "number too small to fit in target type"
def PIE_NEG_MSG : List Nat :=
  [110, 117, 109, 98, 101, 114, 32, 116, 111, 111, 32, 115, 109, 97, 108,
   108, 32, 116, 111, 32, 102, 105, 116, 32, 105, 110, 32, 116, 97, 114,
   103, 101, 116, 32, 116, 121, 112, 101]

/-- `Display` text of a `ParseIntError`. -/
def renderParseIntError : ParseIntError → List Nat
  | ParseIntError.empty => PIE_EMPTY_MSG
  | ParseIntError.invalidDigit => PIE_INVALID_MSG
  | ParseIntError.posOverflow => PIE_POS_MSG
  | ParseIntError.negOverflow => PIE_NEG_MSG

/-- Digit-accumulation loop of Rust `i32::from_str` for a non-negative value:
per character, check it is an ASCII digit, then check the accumulator stays
within `i32::MAX`. -/
def parseDigitsPos : List Nat → Int → Except ParseIntError Int
  | [], acc => Except.ok acc
  | c :: rest, acc =>
    if 48 ≤ c ∧ c ≤ 57 then
      if acc * 10 + ((c : Int) - 48) ≤ 2147483647 then
        parseDigitsPos rest (acc * 10 + ((c : Int) - 48))
      else Except.error ParseIntError.posOverflow
    else Except.error ParseIntError.invalidDigit

/-- Digit-accumulation loop of Rust `i32::from_str` after a leading `-`:
the accumulator decreases and must stay within `i32::MIN`. -/
def parseDigitsNeg : List Nat → Int → Except ParseIntError Int
  | [], acc => Except.ok acc
  | c :: rest, acc =>
    if 48 ≤ c ∧ c ≤ 57 then
      if -2147483648 ≤ acc * 10 - ((c : Int) - 48) then
        parseDigitsNeg rest (acc * 10 - ((c : Int) - 48))
      else Except.error ParseIntError.negOverflow
    else Except.error ParseIntError.invalidDigit

/-- Rust `i32::from_str` (`str::parse::<i32>()`): optional sign, then digits. -/
def parseI32 : List Nat → Except ParseIntError Int
  | [] => Except.error ParseIntError.empty
  | c :: rest =>
    if c = 43 then
      if rest.isEmpty then Except.error ParseIntError.invalidDigit
      else parseDigitsPos rest 0
    else if c = 45 then
      if rest.isEmpty then Except.error ParseIntError.invalidDigit
      else parseDigitsNeg rest 0
    else parseDigitsPos (c :: rest) 0

/-- errors.rs `StatError`. -/
structure StatError where
  message : List Nat
deriving DecidableEq

/-- errors.rs `ListError`. -/
structure ListError where
  message : List Nat
deriving DecidableEq

/-- errors.rs `RetrieveError`. -/
structure RetrieveError where
  message : List Nat
deriving DecidableEq

/-- errors.rs `ConnectionError`. -/
structure ConnectionError where
  message : List Nat
deriving DecidableEq

-- "could not parse stat response as numbers: "
def STAT_PARSE_MSG : List Nat :=
  [99, 111, 117, 108, 100, 32, 110, 111, 116, 32, 112, 97, 114, 115, 101, 32,
   115, 116, 97, 116, 32, 114, 101, 115, 112, 111, 110, 115, 101, 32, 97,
   115, 32, 110, 117, 109, 98, 101, 114, 115, 58, 32]

-- "could not parse list response numbers: "
def LIST_PARSE_MSG : List Nat :=
  [99, 111, 117, 108, 100, 32, 110, 111, 116, 32, 112, 97, 114, 115, 101, 32,
   108, 105, 115, 116, 32, 114, 101, 115, 112, 111, 110, 115, 101, 32, 110,
   117, 109, 98, 101, 114, 115, 58, 32]

-- "invalid stat response: "
def INVALID_STAT_MSG : List Nat :=
  [105, 110, 118, 97, 108, 105, 100, 32, 115, 116, 97, 116, 32, 114, 101,
   115, 112, 111, 110, 115, 101, 58, 32]

-- "invalid list item: "
def INVALID_ITEM_MSG : List Nat :=
  [105, 110, 118, 97, 108, 105, 100, 32, 108, 105, 115, 116, 32, 105, 116,
   101, 109, 58, 32]

/-- errors.rs `impl From<ParseIntError> for StatError`. -/
def statErrorOfParse (e : ParseIntError) : StatError :=
  ⟨STAT_PARSE_MSG ++ renderParseIntError e⟩

/-- errors.rs `impl From<ParseIntError> for ListError`. -/
def listErrorOfParse (e : ParseIntError) : ListError :=
  ⟨LIST_PARSE_MSG ++ renderParseIntError e⟩

/-- responses.rs `StatResponse`. -/
structure StatResponse where
  number_of_message : Int
  total_size : Int
deriving DecidableEq

/-- responses.rs `impl TryFrom<String> for StatResponse`: split on a single
space, require exactly two fields, parse each as an i32. -/
def StatResponse.tryFrom (value : List Nat) : Except StatError StatResponse :=
  match splitOnByte 32 value with
  | [a, b] =>
    match parseI32 a with
    | Except.error e => Except.error (statErrorOfParse e)
    | Except.ok number_of_message =>
      match parseI32 b with
      | Except.error e => Except.error (statErrorOfParse e)
      | Except.ok total_size => Except.ok ⟨number_of_message, total_size⟩
  | _ => Except.error ⟨INVALID_STAT_MSG ++ value⟩

/-- responses.rs `ItemResponse`. -/
structure ItemResponse where
  message_id : Int
  size : Int
deriving DecidableEq

/-- responses.rs `impl TryFrom<String> for ItemResponse`: same shape rules as
`StatResponse`, with `ListError` errors. -/
def ItemResponse.tryFrom (value : List Nat) : Except ListError ItemResponse :=
  match splitOnByte 32 value with
  | [a, b] =>
    match parseI32 a with
    | Except.error e => Except.error (listErrorOfParse e)
    | Except.ok message_id =>
      match parseI32 b with
      | Except.error e => Except.error (listErrorOfParse e)
      | Except.ok size => Except.ok ⟨message_id, size⟩
  | _ => Except.error ⟨INVALID_ITEM_MSG ++ value⟩

/-- The line pipeline of responses.rs `ListResponse::try_from`: split the
payload on LF, remove every CR from each line, drop lines that are empty or
a sole period. -/
def listLines (value : List Nat) : List (List Nat) :=
  ((splitOnByte 10 value).map (fun v => v.filter (fun c => c != 13))).filter
    (fun v => !v.isEmpty && v != [46])

/-- Rust `collect::<Result<Vec<_>, _>>` over the parsed lines: first error
wins, otherwise the items in order. -/
def collectItems : List (List Nat) → Except ListError (List ItemResponse)
  | [] => Except.ok []
  | l :: rest =>
    match ItemResponse.tryFrom l with
    | Except.error e => Except.error e
    | Except.ok it =>
      match collectItems rest with
      | Except.error e => Except.error e
      | Except.ok its => Except.ok (it :: its)

/-- responses.rs `ListResponse`. -/
structure ListResponse where
  messages : List ItemResponse
deriving DecidableEq

/-- responses.rs `impl TryFrom<String> for ListResponse`. -/
def ListResponse.tryFrom (value : List Nat) : Except ListError ListResponse :=
  match collectItems (listLines value) with
  | Except.error e => Except.error e
  | Except.ok messages => Except.ok ⟨messages⟩

/-- responses.rs `RetrieveResponse`. -/
structure RetrieveResponse where
  message_id : Int
  data : List Nat
deriving DecidableEq

/-- lib.rs `Pop3Client`.  The source struct owns only the TLS stream, which the
model passes to each operation as a chunk list; `loggedIn` is a ghost flag
recording whether a USER/PASS exchange completed during `connect`.  No
operation reads it — exactly as in the source, where no such state exists. -/
structure Pop3Client where
  loggedIn : Bool
deriving DecidableEq

def STAT_CMD : List Nat := [83, 84, 65, 84]  -- "STAT"

def LIST_CMD : List Nat := [76, 73, 83, 84]  -- "LIST"

def RETR_CMD : List Nat := [82, 69, 84, 82, 32]  -- "RETR "

def USER_CMD : List Nat := [85, 83, 69, 82, 32]  -- "USER "

def PASS_CMD : List Nat := [80, 65, 83, 83, 32]  -- "PASS "

-- "no messages available"
def NO_MESSAGES_MSG : List Nat :=
  [110, 111, 32, 109, 101, 115, 115, 97, 103, 101, 115, 32, 97, 118, 97, 105,
   108, 97, 98, 108, 101]

/-- Fuel-driven decimal rendering of a natural number (most significant digit
first); fuel `n + 1` always suffices for `n`. -/
def natDigitsF : Nat → Nat → List Nat
  | 0, n => [48 + n % 10]
  | fuel + 1, n => if n < 10 then [48 + n] else natDigitsF fuel (n / 10) ++ [48 + n % 10]

/-- Rust `Display` for `i32` (as used by `format!("RETR {message_id}")`). -/
def intToBytes (i : Int) : List Nat :=
  if i < 0 then 45 :: natDigitsF i.natAbs i.natAbs else natDigitsF i.natAbs i.natAbs

/-- lib.rs `Pop3Client::stat`: send STAT, read a single-line reply, parse it.
The first component is the list of command lines written (without CRLF). -/
def stat (c : Pop3Client) (chunks : List (List Nat)) :
    List (List Nat) × Run (Except StatError StatResponse) :=
  ([STAT_CMD],
    match read_response chunks with
    | Run.done (Except.error m) rest => Run.done (Except.error ⟨m⟩) rest
    | Run.done (Except.ok payload) rest => Run.done (StatResponse.tryFrom payload) rest
    | Run.blocked => Run.blocked
    | Run.crashed => Run.crashed)

/-- lib.rs `Pop3Client::list`: send LIST, read a multi-line reply, parse it. -/
def list (c : Pop3Client) (chunks : List (List Nat)) :
    List (List Nat) × Run (Except ListError ListResponse) :=
  ([LIST_CMD],
    match read_multi_response chunks with
    | Run.done (Except.error m) rest => Run.done (Except.error ⟨m⟩) rest
    | Run.done (Except.ok payload) rest => Run.done (ListResponse.tryFrom payload) rest
    | Run.blocked => Run.blocked
    | Run.crashed => Run.crashed)

/-- lib.rs `Pop3Client::retrieve_last_as_string`: LIST, take the last listed
item, RETR it, and return the body with the `-1` sentinel message id; an
empty list yields a `no messages available` error.  `ListError` and read
errors convert into `RetrieveError` keeping the message. -/
def retrieve_last_as_string (c : Pop3Client) (chunks : List (List Nat)) :
    List (List Nat) × Run (Except RetrieveError RetrieveResponse) :=
  match list c chunks with
  | (cmds, Run.blocked) => (cmds, Run.blocked)
  | (cmds, Run.crashed) => (cmds, Run.crashed)
  | (cmds, Run.done (Except.error e) rest) => (cmds, Run.done (Except.error ⟨e.message⟩) rest)
  | (cmds, Run.done (Except.ok lr) rest) =>
    match lr.messages.getLast? with
    | none => (cmds, Run.done (Except.error ⟨NO_MESSAGES_MSG⟩) rest)
    | some last_message =>
      let cmds2 := cmds ++ [RETR_CMD ++ intToBytes last_message.message_id]
      match read_multi_response rest with
      | Run.blocked => (cmds2, Run.blocked)
      | Run.crashed => (cmds2, Run.crashed)
      | Run.done (Except.error m) r2 => (cmds2, Run.done (Except.error ⟨m⟩) r2)
      | Run.done (Except.ok body) r2 => (cmds2, Run.done (Except.ok ⟨-1, body⟩) r2)

/-- lib.rs `Pop3ClientBuilder::connect`, from the point where the TLS stream is
established: read the greeting (any `-ERR` or unexpected reply propagates as a
`ConnectionError` carrying the translated message), then, only when
credentials were collected, run the USER/PASS exchange. -/
def connect (creds : Option (List Nat × List Nat)) (chunks : List (List Nat)) :
    List (List Nat) × Run (Except ConnectionError Pop3Client) :=
  match read_response chunks with
  | Run.crashed => ([], Run.crashed)
  | Run.blocked => ([], Run.blocked)
  | Run.done (Except.error m) rest => ([], Run.done (Except.error ⟨m⟩) rest)
  | Run.done (Except.ok _) rest =>
    match creds with
    | none => ([], Run.done (Except.ok ⟨false⟩) rest)
    | some (user, pass) =>
      match read_response rest with
      | Run.crashed => ([USER_CMD ++ user], Run.crashed)
      | Run.blocked => ([USER_CMD ++ user], Run.blocked)
      | Run.done (Except.error m) r2 =>
        ([USER_CMD ++ user], Run.done (Except.error ⟨m⟩) r2)
      | Run.done (Except.ok _) r2 =>
        match read_response r2 with
        | Run.crashed => ([USER_CMD ++ user, PASS_CMD ++ pass], Run.crashed)
        | Run.blocked => ([USER_CMD ++ user, PASS_CMD ++ pass], Run.blocked)
        | Run.done (Except.error m) r3 =>
          ([USER_CMD ++ user, PASS_CMD ++ pass], Run.done (Except.error ⟨m⟩) r3)
        | Run.done (Except.ok _) r3 =>
          ([USER_CMD ++ user, PASS_CMD ++ pass], Run.done (Except.ok ⟨true⟩) r3)

/-- Nonempty all-digit field. -/
def isDigits (l : List Nat) : Bool :=
  !l.isEmpty && l.all (fun c => (48 ≤ c : Bool) && (c ≤ 57 : Bool))

/-- Modelled from the spec: a well-formed STAT server reply carries two
space-separated unsigned decimal fields (`<count> <size>`, RFC 1939); the
source has no definition of well-formedness, so this one follows the spec's
words. -/
def specWellFormedStatPayload (s : List Nat) : Bool :=
  match splitOnByte 32 s with
  | [a, b] => isDigits a && isDigits b
  | _ => false

/-! ## Helper lemmas about the byte-string operations -/

lemma leadsWith_iff : ∀ (p s : List Nat), leadsWith p s = true ↔ ∃ u, s = p ++ u := by
  intro p
  induction p with
  | nil => intro s; simp [leadsWith]
  | cons a ps ih =>
    intro s
    cases s with
    | nil => simp [leadsWith]
    | cons c cs =>
      simp only [leadsWith, Bool.and_eq_true, beq_iff_eq, ih, List.cons_append,
        List.cons.injEq]
      constructor
      · rintro ⟨h1, u, h2⟩
        exact ⟨u, h1.symm, h2⟩
      · rintro ⟨u, h1, h2⟩
        exact ⟨h1.symm, u, h2⟩

lemma leadsWith_app_self (p u : List Nat) : leadsWith p (p ++ u) = true :=
  (leadsWith_iff p (p ++ u)).mpr ⟨u, rfl⟩

lemma containsOccur_iff : ∀ (pat s : List Nat),
    containsOccur pat s = true ↔ ∃ a b, s = a ++ pat ++ b := by
  intro pat s
  induction s with
  | nil =>
    rw [containsOccur, leadsWith_iff]
    constructor
    · rintro ⟨u, hu⟩
      obtain ⟨h1, h2⟩ := List.append_eq_nil.mp hu.symm
      exact ⟨[], [], by simp [h1, h2]⟩
    · rintro ⟨a, b, hab⟩
      have := List.append_eq_nil.mp hab.symm
      have h2 := List.append_eq_nil.mp this.1
      exact ⟨[], by simp [h2.2]⟩
  | cons c cs ih =>
    rw [containsOccur, Bool.or_eq_true, ih, leadsWith_iff]
    constructor
    · rintro (⟨u, hu⟩ | ⟨a, b, hab⟩)
      · exact ⟨[], u, by simpa using hu⟩
      · exact ⟨c :: a, b, by simp [hab]⟩
    · rintro ⟨a, b, hab⟩
      cases a with
      | nil => exact Or.inl ⟨b, by simpa using hab⟩
      | cons x a2 =>
        right
        rw [List.cons_append, List.cons_append] at hab
        injection hab with h1 h2
        exact ⟨a2, b, by simpa using h2⟩

lemma containsOccur_snoc (pat u : List Nat) (y : Nat) (hp : pat ≠ [])
    (h : containsOccur pat (u ++ [y]) = true) :
    containsOccur pat u = true ∨ pat.getLast? = some y := by
  rcases (containsOccur_iff pat (u ++ [y])).mp h with ⟨a, b, hab⟩
  rcases List.eq_nil_or_concat b with hb | ⟨b2, yb, hb⟩
  · subst hb
    right
    have h1 : (u ++ [y]).getLast? = some y := List.getLast?_concat u
    rw [hab] at h1
    rw [List.append_nil, List.getLast?_append_of_ne_nil a hp] at h1
    exact h1
  · subst hb
    rw [List.concat_eq_append] at hab
    have hy : yb = y := by
      have h1 : (u ++ [y]).getLast? = some y := List.getLast?_concat u
      rw [hab] at h1
      rw [show a ++ pat ++ (b2 ++ [yb]) = (a ++ pat ++ b2) ++ [yb] by simp] at h1
      rw [List.getLast?_concat] at h1
      exact Option.some.inj h1
    subst hy
    left
    have h3 : u ++ [yb] = (a ++ pat ++ b2) ++ [yb] := by
      rw [hab]
      simp
    exact (containsOccur_iff pat u).mpr ⟨a, b2, List.append_cancel_right h3⟩

lemma containsOccur_cons_elim (pat : List Nat) (x : Nat) (u : List Nat)
    (h : containsOccur pat (x :: u) = true) :
    leadsWith pat (x :: u) = true ∨ containsOccur pat u = true := by
  rw [containsOccur] at h
  exact Bool.or_eq_true _ _ |>.mp h

lemma replaceAllF_no_occur (pat rep : List Nat) :
    ∀ (fuel : Nat) (s : List Nat), containsOccur pat s = false →
      replaceAllF pat rep fuel s = s := by
  intro fuel
  induction fuel with
  | zero => intro s h; cases s <;> rfl
  | succ f ih =>
    intro s h
    cases s with
    | nil => rfl
    | cons c cs =>
      rw [containsOccur, Bool.or_eq_false_iff] at h
      rw [replaceAllF, if_neg (by intro hx; rw [hx.2] at h; exact Bool.true_eq_false.mp h.1)]
      rw [ih cs h.2]

lemma replaceAll_no_occur (pat rep s : List Nat) (h : containsOccur pat s = false) :
    replaceAll pat rep s = s :=
  replaceAllF_no_occur pat rep s.length s h

lemma replaceAllF_fuel (pat rep : List Nat) :
    ∀ (f1 : Nat) (f2 : Nat) (s : List Nat), s.length ≤ f1 → s.length ≤ f2 →
      replaceAllF pat rep f1 s = replaceAllF pat rep f2 s := by
  intro f1
  induction f1 with
  | zero =>
    intro f2 s h1 h2
    have hs : s = [] := List.eq_nil_of_length_eq_zero (Nat.le_zero.mp h1)
    subst hs
    cases f2 <;> rfl
  | succ f ih =>
    intro f2 s h1 h2
    cases s with
    | nil => cases f2 <;> rfl
    | cons c cs =>
      cases f2 with
      | zero => simp at h2
      | succ g =>
        by_cases hm : pat ≠ [] ∧ leadsWith pat (c :: cs) = true
        · rw [replaceAllF, replaceAllF, if_pos hm, if_pos hm]
          congr 1
          apply ih
          · calc (cs.drop (pat.length - 1)).length ≤ cs.length := by
                  simp [List.length_drop]
              _ ≤ f := by simpa using h1
          · calc (cs.drop (pat.length - 1)).length ≤ cs.length := by
                  simp [List.length_drop]
              _ ≤ g := by simpa using h2
        · rw [replaceAllF, replaceAllF, if_neg hm, if_neg hm]
          rw [ih g cs (by simpa using h1) (by simpa using h2)]

lemma replaceAll_cons_else (pat rep : List Nat) (c : Nat) (cs : List Nat)
    (h : ¬(pat ≠ [] ∧ leadsWith pat (c :: cs) = true)) :
    replaceAll pat rep (c :: cs) = c :: replaceAll pat rep cs := by
  unfold replaceAll
  simp only [List.length_cons]
  rw [replaceAllF, if_neg h]

lemma replaceAll_head_match (pat rep u : List Nat) (hp : pat ≠ []) :
    replaceAll pat rep (pat ++ u) = rep ++ replaceAll pat rep u := by
  cases pat with
  | nil => exact absurd rfl hp
  | cons p ps =>
    unfold replaceAll
    simp only [List.cons_append, List.length_cons, List.length_append]
    rw [replaceAllF, if_pos ⟨hp, by
      have := leadsWith_app_self (p :: ps) u
      simpa using this⟩]
    congr 1
    · rw [List.length_cons, Nat.add_sub_cancel, List.drop_left]
      apply replaceAllF_fuel
      · simp
      · exact le_refl _


lemma no_occur_of_disjoint (pat : List Nat) (hp : pat ≠ []) :
    ∀ (s : List Nat), (∀ x ∈ s, ¬ x ∈ pat) → containsOccur pat s = false := by
  intro s
  induction s with
  | nil =>
    intro hdisj
    rw [containsOccur]
    cases pat with
    | nil => exact absurd rfl hp
    | cons p ps => rfl
  | cons c cs ih =>
    intro hdisj
    rw [containsOccur, Bool.or_eq_false_iff]
    refine ⟨?_, ih (fun x hx => hdisj x (List.mem_cons_of_mem c hx))⟩
    cases pat with
    | nil => exact absurd rfl hp
    | cons p ps =>
      cases hpc : leadsWith (p :: ps) (c :: cs) with
      | false => rfl
      | true =>
        exfalso
        obtain ⟨u, hu⟩ := (leadsWith_iff _ _).mp hpc
        rw [List.cons_append] at hu
        injection hu with h1 h2
        exact hdisj c (List.mem_cons_self c cs) (h1 ▸ List.mem_cons_self p ps)

lemma replaceAllF_keeps_tail (pat t : List Nat) (hp : pat ≠ [])
    (hdisj : ∀ x ∈ t, ¬ x ∈ pat) :
    ∀ (fuel : Nat) (s : List Nat), s.length ≤ fuel → (∃ a, s = a ++ t) →
      ∃ b, replaceAllF pat [] fuel s = b ++ t := by
  intro fuel
  induction fuel with
  | zero =>
    rintro s hl ⟨a, ha⟩
    have hs : s = [] := List.eq_nil_of_length_eq_zero (Nat.le_zero.mp hl)
    subst hs
    have ht : t = [] := (List.append_eq_nil.mp ha.symm).2
    exact ⟨[], by subst ht; rfl⟩
  | succ f ih =>
    rintro s hl ⟨a, ha⟩
    cases s with
    | nil =>
      have ht : t = [] := (List.append_eq_nil.mp ha.symm).2
      exact ⟨[], by subst ht; rfl⟩
    | cons c cs =>
      by_cases hm : pat ≠ [] ∧ leadsWith pat (c :: cs) = true
      · obtain ⟨u, hu⟩ := (leadsWith_iff pat (c :: cs)).mp hm.2
        cases pat with
        | nil => exact absurd rfl hp
        | cons p ps =>
          rw [replaceAllF, if_pos hm]
          rw [List.cons_append] at hu
          injection hu with hc hcs
          have hdrop : cs.drop ((p :: ps).length - 1) = u := by
            rw [hcs]
            simp only [List.length_cons, Nat.add_sub_cancel]
            exact List.drop_left ps u
          rw [hdrop]
          have hlenu : u.length ≤ f := by
            have := congrArg List.length hcs
            simp only [List.length_append] at this
            simp only [List.length_cons] at hl
            omega
          have heq : a ++ t = (p :: ps) ++ u := by
            rw [← ha, List.cons_append, hc, hcs]
          by_cases hlen : (p :: ps).length ≤ a.length
          · -- the match lies inside `a`: recurse on u, which still ends with t
            have hsplit : u = a.drop (p :: ps).length ++ t := by
              have h5 := congrArg (List.drop (p :: ps).length) heq
              rw [List.drop_append_of_le_length hlen, List.drop_left] at h5
              exact h5.symm
            obtain ⟨b, hb⟩ := ih u hlenu ⟨_, hsplit⟩
            exact ⟨b, by simpa using hb⟩
          · -- the match would overlap the tail `t`: impossible by disjointness
            exfalso
            have hlt : a.length < (p :: ps).length := Nat.lt_of_not_le hlen
            have htne : t ≠ [] := by
              intro ht0
              rw [ht0, List.append_nil] at heq
              have := congrArg List.length heq
              simp only [List.length_append] at this
              omega
            cases t with
            | nil => exact htne rfl
            | cons th tt =>
              have h2 : (a ++ (th :: tt)).take (p :: ps).length = p :: ps := by
                rw [heq]
                simp
              have hpat : p :: ps = a ++ (th :: tt).take ((p :: ps).length - a.length) := by
                calc p :: ps
                    = (a ++ (th :: tt)).take (p :: ps).length := h2.symm
                  _ = (a ++ (th :: tt)).take (a.length + ((p :: ps).length - a.length)) := by
                      rw [show a.length + ((p :: ps).length - a.length) = (p :: ps).length by
                        omega]
                  _ = a ++ (th :: tt).take ((p :: ps).length - a.length) := List.take_append _
              have hmem : th ∈ p :: ps := by
                rw [hpat]
                apply List.mem_append.mpr
                right
                rcases hk : (p :: ps).length - a.length with _ | k
                · omega
                · rw [List.take_succ_cons]
                  exact List.mem_cons_self th _
              exact hdisj th (List.mem_cons_self th tt) hmem
      · rw [replaceAllF, if_neg hm]
        cases a with
        | nil =>
          have hst : c :: cs = t := by simpa using ha
          have hno : containsOccur pat cs = false := by
            apply no_occur_of_disjoint pat hp
            intro x hx
            exact hdisj x (hst ▸ List.mem_cons_of_mem c hx)
          rw [replaceAllF_no_occur pat [] f cs hno]
          exact ⟨[], by simpa using hst⟩
        | cons x a2 =>
          rw [List.cons_append] at ha
          injection ha with h1 h2
          obtain ⟨b, hb⟩ := ih cs (by simpa using hl) ⟨a2, h2⟩
          exact ⟨c :: b, by rw [hb]; rfl⟩

lemma replaceAll_keeps_tail (pat t s : List Nat) (hp : pat ≠ [])
    (hdisj : ∀ x ∈ t, ¬ x ∈ pat) (hs : ∃ a, s = a ++ t) :
    ∃ b, replaceAll pat [] s = b ++ t :=
  replaceAllF_keeps_tail pat t hp hdisj s.length s (le_refl _) hs

lemma dropWhile_append_all (p : Nat → Bool) :
    ∀ (u v : List Nat), (∀ x ∈ u, p x = true) →
      (u ++ v).dropWhile p = v.dropWhile p := by
  intro u
  induction u with
  | nil => intro v h; rfl
  | cons x u2 ih =>
    intro v h
    rw [List.cons_append, List.dropWhile_cons, if_pos (h x (List.mem_cons_self x u2))]
    exact ih v (fun y hy => h y (List.mem_cons_of_mem x hy))

lemma dropWhile_append_stop (p : Nat → Bool) :
    ∀ (u v : List Nat), u.dropWhile p ≠ [] →
      (u ++ v).dropWhile p = u.dropWhile p ++ v := by
  intro u
  induction u with
  | nil => intro v h; exact absurd rfl h
  | cons x u2 ih =>
    intro v h
    by_cases hx : p x = true
    · rw [List.dropWhile_cons, if_pos hx] at h
      rw [List.cons_append, List.dropWhile_cons, if_pos hx, List.dropWhile_cons, if_pos hx]
      exact ih v h
    · rw [List.cons_append, List.dropWhile_cons, if_neg hx, List.dropWhile_cons, if_neg hx]
      rfl

lemma trimFront_cons_ws (x : Nat) (v : List Nat) (hx : isWs x = true) :
    trimFront (x :: v) = trimFront v := by
  unfold trimFront
  rw [List.dropWhile_cons, if_pos hx]

lemma trim_cons_ws (x : Nat) (v : List Nat) (hx : isWs x = true) :
    trim (x :: v) = trim v := by
  unfold trim
  rw [trimFront_cons_ws x v hx]

lemma trim_append_tail_ws (u w : List Nat) (hw : ∀ x ∈ w, isWs x = true) :
    trim (u ++ w) = trim u := by
  unfold trim trimFront
  by_cases h : u.dropWhile isWs = []
  · have hu : ∀ x ∈ u, isWs x = true := List.dropWhile_eq_nil_iff.mp h
    rw [h, dropWhile_append_all isWs u w hu, List.dropWhile_eq_nil_iff.mpr hw]
  · rw [dropWhile_append_stop isWs u w h, List.reverse_append,
      dropWhile_append_all isWs w.reverse (u.dropWhile isWs).reverse
        (fun x hx => hw x (List.mem_reverse.mp hx))]

lemma trim_period_tail (a w : List Nat) (hw : ∀ x ∈ w, isWs x = true) :
    trim (a ++ [46] ++ w) ≠ [] ∧ (trim (a ++ [46] ++ w)).getLast? = some 46 := by
  rw [show a ++ [46] ++ w = (a ++ [46]) ++ w by simp]
  rw [trim_append_tail_ws (a ++ [46]) w hw]
  obtain ⟨a2, h2⟩ : ∃ a2, trimFront (a ++ [46]) = a2 ++ [46] := by
    unfold trimFront
    by_cases h : a.dropWhile isWs = []
    · refine ⟨[], ?_⟩
      rw [dropWhile_append_all isWs a [46] (List.dropWhile_eq_nil_iff.mp h)]
      rfl
    · exact ⟨a.dropWhile isWs, dropWhile_append_stop isWs a [46] h⟩
  unfold trim
  rw [h2, List.reverse_append]
  rw [show ([46] : List Nat).reverse = [46] from rfl]
  rw [show ([46] : List Nat) ++ a2.reverse = 46 :: a2.reverse from rfl]
  rw [List.dropWhile_cons, if_neg (by decide)]
  rw [show (46 :: a2.reverse).reverse = a2 ++ [46] by simp]
  exact ⟨by simp, List.getLast?_concat a2⟩

/-! ## Helper lemmas for the single-line reader -/

lemma split_concat (x y t : List Nat) (z : Nat) (h : x ++ y = t ++ [z]) :
    (∃ u, x ++ u = t) ∨ (x = t ++ [z] ∧ y = []) := by
  rcases List.eq_nil_or_concat y with hy | ⟨y2, yl, hy⟩
  · subst hy
    right
    exact ⟨by simpa using h, rfl⟩
  · subst hy
    left
    rw [List.concat_eq_append] at h
    have hz : yl = z := by
      have h1 : (x ++ (y2 ++ [yl])).getLast? = some z := by rw [h]; exact List.getLast?_concat t
      rw [show x ++ (y2 ++ [yl]) = (x ++ y2) ++ [yl] by simp, List.getLast?_concat] at h1
      exact Option.some.inj h1
    subst hz
    have h2 : (x ++ y2) ++ [yl] = t ++ [yl] := by rw [← h]; simp
    exact ⟨y2, List.append_cancel_right h2⟩

lemma readLoop_complete (t : List Nat) (ht : t ≠ []) (h10 : 10 ∉ t) (h0 : 0 ∉ t) :
    ∀ (chunks : List (List Nat)) (buf : List Nat),
      buf ++ chunks.flatten = t ++ [10] →
      ((∃ u, buf ++ u = t) ∨ buf = t ++ [10]) →
      ∃ rest, readLoop chunks buf = Run.done (t ++ [10]) rest := by
  have hfull : ∀ buf : List Nat, buf = t ++ [10] →
      ¬(buf.length < 2 ∨ buf.getLast? ≠ some 10) := by
    intro buf hb
    subst hb
    push_neg
    constructor
    · rw [List.length_append]
      cases t with
      | nil => exact absurd rfl ht
      | cons a l => simp
    · exact List.getLast?_concat t
  intro chunks
  induction chunks with
  | nil =>
    intro buf hjoin hcase
    simp only [List.flatten_nil, List.append_nil] at hjoin
    rw [readLoop, if_neg (hfull buf hjoin)]
    exact ⟨[], by rw [hjoin]⟩
  | cons c rest ih =>
    intro buf hjoin hcase
    rcases hcase with ⟨u, hu⟩ | hb
    · have hcond : buf.length < 2 ∨ buf.getLast? ≠ some 10 := by
        cases hbl : buf.getLast? with
        | none => right; simp [hbl]
        | some x =>
          right
          have hx : x ∈ buf := List.mem_of_mem_getLast? hbl
          have hxt : x ∈ t := by
            rw [← hu]
            exact List.mem_append_left u hx
          intro he
          injection he with he
          exact h10 (he ▸ hxt)
      rw [readLoop, if_pos hcond]
      have hjoin2 : (buf ++ c) ++ rest.flatten = t ++ [10] := by
        rw [show (buf ++ c) ++ rest.flatten = buf ++ (c ++ rest.flatten) by simp]
        rw [← List.flatten_cons]
        exact hjoin
      have hfil : (buf ++ c).filter (fun v => v != 0) = buf ++ c := by
        rw [List.filter_eq_self]
        intro a ha
        have hmem : a ∈ t ++ [10] := by
          rw [← hjoin2]
          exact List.mem_append_left rest.flatten ha
        rcases List.mem_append.mp hmem with h1 | h1
        · simp only [bne_iff_ne, ne_eq]
          intro h2
          exact h0 (h2 ▸ h1)
        · simp only [List.mem_singleton] at h1
          subst h1
          decide
      rw [hfil]
      apply ih (buf ++ c) hjoin2
      rcases split_concat (buf ++ c) rest.flatten t 10 hjoin2 with h1 | h1
      · exact Or.inl h1
      · exact Or.inr h1.1
    · rw [readLoop, if_neg (hfull buf hb)]
      exact ⟨c :: rest, by rw [hb]⟩

lemma replaceAll_crlf_tail (msg : List Nat) (h13 : 13 ∉ msg) :
    replaceAll CRLF [] (msg ++ [13, 10]) = msg := by
  induction msg with
  | nil =>
    rw [show ([] : List Nat) ++ [13, 10] = CRLF ++ [] by simp [CRLF]]
    rw [replaceAll_head_match CRLF [] [] (by decide)]
    rfl
  | cons c m ih =>
    have hc13 : c ≠ 13 := fun hx => h13 (hx ▸ List.mem_cons_self c m)
    have hcons : ¬(CRLF ≠ [] ∧ leadsWith CRLF (c :: (m ++ [13, 10])) = true) := by
      intro hx
      have h2 := hx.2
      simp only [CRLF, leadsWith, Bool.and_eq_true, beq_iff_eq] at h2
      exact hc13 h2.1.symm
    rw [show (c :: m) ++ [13, 10] = c :: (m ++ [13, 10]) from rfl]
    rw [replaceAll_cons_else CRLF [] c _ hcons]
    rw [ih (fun hm => h13 (List.mem_cons_of_mem c hm))]

lemma translate_ok_clean (text : List Nat) (h10 : 10 ∉ text)
    (hocc : containsOccur OK_RESPONSE_START text = false) :
    translate_string_response (([43, 79, 75, 32] ++ text) ++ [10]) =
      Except.ok (trim text) := by
  have hshape : ([43, 79, 75, 32] ++ text) ++ [10] =
      OK_RESPONSE_START ++ (32 :: (text ++ [10])) := by
    simp [OK_RESPONSE_START]
  rw [hshape]
  unfold translate_string_response
  rw [if_pos (leadsWith_app_self _ _)]
  have hno : containsOccur OK_RESPONSE_START (32 :: (text ++ [10])) = false := by
    cases hb : containsOccur OK_RESPONSE_START (32 :: (text ++ [10])) with
    | false => rfl
    | true =>
      exfalso
      rcases containsOccur_cons_elim _ _ _ hb with hl | hc
      · simp [OK_RESPONSE_START, leadsWith] at hl
      · rcases containsOccur_snoc OK_RESPONSE_START text 10 (by decide) hc with h1 | h1
        · rw [hocc] at h1
          exact Bool.false_ne_true h1
        · simp [OK_RESPONSE_START] at h1
  rw [replaceAll_head_match OK_RESPONSE_START [] _ (by decide),
    replaceAll_no_occur _ _ _ hno, List.nil_append]
  rw [trim_cons_ws 32 _ (by decide)]
  rw [trim_append_tail_ws text [10] (by intro x hx; simp at hx; subst hx; decide)]

lemma translate_err_clean (msg : List Nat) (h10 : 10 ∉ msg) (h13 : 13 ∉ msg)
    (hocc : containsOccur ERR_RESPONSE_START msg = false) :
    translate_string_response (([45, 69, 82, 82, 32] ++ msg ++ [13]) ++ [10]) =
      Except.error (trim msg) := by
  have hshape : ([45, 69, 82, 82, 32] ++ msg ++ [13]) ++ [10] =
      ERR_RESPONSE_START ++ (32 :: (msg ++ [13, 10])) := by
    simp [ERR_RESPONSE_START]
  rw [hshape]
  unfold translate_string_response
  have hok : ¬(leadsWith OK_RESPONSE_START
      (ERR_RESPONSE_START ++ (32 :: (msg ++ [13, 10]))) = true) := by
    rw [show ERR_RESPONSE_START ++ (32 :: (msg ++ [13, 10])) =
        45 :: (69 :: (82 :: (82 :: (32 :: (msg ++ [13, 10]))))) from rfl]
    simp [OK_RESPONSE_START, leadsWith]
  rw [if_neg hok, if_pos (leadsWith_app_self _ _)]
  have hno : containsOccur ERR_RESPONSE_START (32 :: (msg ++ [13, 10])) = false := by
    cases hb : containsOccur ERR_RESPONSE_START (32 :: (msg ++ [13, 10])) with
    | false => rfl
    | true =>
      exfalso
      rcases containsOccur_cons_elim _ _ _ hb with hl | hc
      · simp [ERR_RESPONSE_START, leadsWith] at hl
      · rw [show msg ++ [13, 10] = (msg ++ [13]) ++ [10] by simp] at hc
        rcases containsOccur_snoc ERR_RESPONSE_START (msg ++ [13]) 10 (by decide) hc with
          h1 | h1
        · rcases containsOccur_snoc ERR_RESPONSE_START msg 13 (by decide) h1 with h2 | h2
          · rw [hocc] at h2
            exact Bool.false_ne_true h2
          · simp [ERR_RESPONSE_START] at h2
        · simp [ERR_RESPONSE_START] at h1
  rw [replaceAll_head_match ERR_RESPONSE_START [] _ (by decide),
    replaceAll_no_occur _ _ _ hno, List.nil_append]
  have hcons : ¬(CRLF ≠ [] ∧ leadsWith CRLF (32 :: (msg ++ [13, 10])) = true) := by
    intro hx
    have h2 := hx.2
    simp [CRLF, leadsWith] at h2
  rw [replaceAll_cons_else CRLF [] 32 _ hcons]
  rw [replaceAll_crlf_tail msg h13]
  rw [trim_cons_ws 32 msg (by decide)]

lemma readAllLoop_done_stop :
    ∀ (chunks : List (List Nat)) (buf0 buf : List Nat) (rest : List (List Nat)),
      readAllLoop chunks buf0 = Run.done buf rest → multiStop buf = some true := by
  intro chunks
  induction chunks with
  | nil =>
    intro buf0 buf rest h
    rw [readAllLoop] at h
    cases hm : multiStop buf0 with
    | none => rw [hm] at h; cases h
    | some e =>
      cases e with
      | false => rw [hm] at h; cases h
      | true =>
        rw [hm] at h
        injection h with h1 h2
        rw [← h1]
        exact hm
  | cons c rest2 ih =>
    intro buf0 buf rest h
    rw [readAllLoop] at h
    cases hm : multiStop buf0 with
    | none => rw [hm] at h; cases h
    | some e =>
      cases e with
      | false =>
        rw [hm] at h
        exact ih _ buf rest h
      | true =>
        rw [hm] at h
        injection h with h1 h2
        rw [← h1]
        exact hm

lemma parseDigitsPos_nonneg :
    ∀ (l : List Nat) (acc v : Int), parseDigitsPos l acc = Except.ok v → 0 ≤ acc → 0 ≤ v := by
  intro l
  induction l with
  | nil =>
    intro acc v h ha
    unfold parseDigitsPos at h
    cases h
    exact ha
  | cons c rest ih =>
    intro acc v h ha
    unfold parseDigitsPos at h
    by_cases hc : 48 ≤ c ∧ c ≤ 57
    · rw [if_pos hc] at h
      by_cases hb : acc * 10 + ((c : Int) - 48) ≤ 2147483647
      · rw [if_pos hb] at h
        refine ih _ _ h ?_
        have hc48 : (48 : Int) ≤ (c : Int) := by exact_mod_cast hc.1
        nlinarith
      · rw [if_neg hb] at h
        cases h
    · rw [if_neg hc] at h
      cases h

lemma parseI32_of_digits (l : List Nat) (h : isDigits l = true) :
    parseI32 l = parseDigitsPos l 0 := by
  cases l with
  | nil => simp [isDigits] at h
  | cons c rest =>
    have hc : 48 ≤ c ∧ c ≤ 57 := by
      simp [isDigits] at h
      exact ⟨h.1.1, h.1.2⟩
    have h43 : ¬(c = 43) := by omega
    have h45 : ¬(c = 45) := by omega
    simp [parseI32, h43, h45]

lemma statTryFrom_errA (s a b : List Nat) (e : ParseIntError)
    (hs : splitOnByte 32 s = [a, b]) (hpa : parseI32 a = Except.error e) :
    StatResponse.tryFrom s = Except.error (statErrorOfParse e) := by
  simp [StatResponse.tryFrom, hs, hpa]

lemma statTryFrom_errB (s a b : List Nat) (n : Int) (e : ParseIntError)
    (hs : splitOnByte 32 s = [a, b]) (hpa : parseI32 a = Except.ok n)
    (hpb : parseI32 b = Except.error e) :
    StatResponse.tryFrom s = Except.error (statErrorOfParse e) := by
  simp [StatResponse.tryFrom, hs, hpa, hpb]

lemma statTryFrom_ok (s a b : List Nat) (n m : Int)
    (hs : splitOnByte 32 s = [a, b]) (hpa : parseI32 a = Except.ok n)
    (hpb : parseI32 b = Except.ok m) :
    StatResponse.tryFrom s = Except.ok ⟨n, m⟩ := by
  simp [StatResponse.tryFrom, hs, hpa, hpb]

lemma collectItems_ok_forall :
    ∀ (ls : List (List Nat)) (items : List ItemResponse),
      collectItems ls = Except.ok items →
      List.Forall₂ (fun l it => ItemResponse.tryFrom l = Except.ok it) ls items := by
  intro ls
  induction ls with
  | nil =>
    intro items h
    unfold collectItems at h
    cases h
    exact List.Forall₂.nil
  | cons l rest ih =>
    intro items h
    unfold collectItems at h
    cases hl : ItemResponse.tryFrom l with
    | error e => rw [hl] at h; cases h
    | ok it =>
      rw [hl] at h
      cases hr : collectItems rest with
      | error e => rw [hr] at h; cases h
      | ok its =>
        rw [hr] at h
        cases h
        exact List.Forall₂.cons hl (ih its hr)

lemma collectItems_mem_err :
    ∀ (ls : List (List Nat)) (l : List Nat) (e : ListError),
      l ∈ ls → ItemResponse.tryFrom l = Except.error e →
      ∃ e2, collectItems ls = Except.error e2 := by
  intro ls
  induction ls with
  | nil => intro l e hm; cases hm
  | cons hd rest ih =>
    intro l e hm he
    unfold collectItems
    rcases List.mem_cons.mp hm with hl | hl
    · subst hl
      rw [he]
      exact ⟨e, rfl⟩
    · cases hh : ItemResponse.tryFrom hd with
      | error e3 => exact ⟨e3, rfl⟩
      | ok it =>
        obtain ⟨e2, h2⟩ := ih l e hl he
        rw [h2]
        exact ⟨e2, rfl⟩

/-! ## Claim theorems -/

/-- Claim C1 (amended).  The code has no client-side state check: every
TRANSACTION operation behaves identically on a logged-in and a
never-logged-in session (stat, list and retrieve_last_as_string are shown),
and the `no_login` builder path produces, after `connect`, a client whose
USER/PASS exchange never happened. -/
theorem c1_transaction_ops_ignore_login_state :
    (∀ (b₁ b₂ : Bool) (chunks : List (List Nat)), stat ⟨b₁⟩ chunks = stat ⟨b₂⟩ chunks) ∧
    (∀ (b₁ b₂ : Bool) (chunks : List (List Nat)), list ⟨b₁⟩ chunks = list ⟨b₂⟩ chunks) ∧
    (∀ (b₁ b₂ : Bool) (chunks : List (List Nat)),
      retrieve_last_as_string ⟨b₁⟩ chunks = retrieve_last_as_string ⟨b₂⟩ chunks) ∧
    (∀ (chunks : List (List Nat)) (c : Pop3Client) (rest : List (List Nat)),
      (connect none chunks).2 = Run.done (Except.ok c) rest → c.loggedIn = false) := by
  refine ⟨fun _ _ _ => rfl, fun _ _ _ => rfl, fun _ _ _ => rfl, ?_⟩
  intro chunks c rest h
  unfold connect at h
  cases hr : read_response chunks with
  | done val rest2 =>
    rw [hr] at h
    cases val with
    | error m => simp at h
    | ok p =>
      simp at h
      rw [← h.1]
  | blocked => rw [hr] at h; simp at h
  | crashed => rw [hr] at h; simp at h

theorem c1_transaction_ops_ignore_login_state_witness :
    (Pop3Client.mk false).loggedIn = false :=
  c1_transaction_ops_ignore_login_state.2.2.2 [[43, 79, 75, 13, 10]] ⟨false⟩ [] (by decide)

/-- Claim C1, counterexample to the claim as stated.  A session built through
`no_login` and `connect` (so it never completed a login) still executes
`stat` end to end: the command is sent and the server's `+OK 2 320` reply is
parsed and returned, with no compile-time refusal and no protocol-state
error. -/
theorem c1_no_login_stat_succeeds :
    (connect none [[43, 79, 75, 13, 10]]).2 = Run.done (Except.ok ⟨false⟩) [] ∧
    (stat ⟨false⟩ [[43, 79, 75, 32, 50, 32, 51, 50, 48, 13, 10]]).2 =
      Run.done (Except.ok ⟨2, 320⟩) [] := by decide

/-- Claim C4.  The multi-line reader's framing check is not total: when the
first delivered chunk leaves 3 or 4 non-zero bytes in the buffer, the
unconditional slice `buffer[len - 5 ..]` in
`ends_with_sole_period_and_newline` underflows and the read panics instead
of returning or looping. -/
theorem c4_short_first_chunk_crashes :
    readAllLoop [[45, 69, 82]] [] = Run.crashed ∧
    readAllLoop [[43, 79, 75, 10]] [] = Run.crashed := by decide

/-- Claim C5.  List reply parsing: after splitting on LF, stripping CR and
dropping empty and sole-period lines, a successful parse is exactly the
in-order item parse of each kept line (hence the item count equals the kept
line count); any kept line that fails to parse fails the whole reply; and no
kept line — hence no parsed item's source — is empty or a sole period. -/
theorem c5_list_reply_parsing :
    (∀ (s : List Nat) (items : List ItemResponse),
        ListResponse.tryFrom s = Except.ok ⟨items⟩ →
        List.Forall₂ (fun l it => ItemResponse.tryFrom l = Except.ok it) (listLines s) items ∧
        items.length = (listLines s).length) ∧
    (∀ (s l : List Nat) (e : ListError), l ∈ listLines s →
        ItemResponse.tryFrom l = Except.error e →
        ∃ e2, ListResponse.tryFrom s = Except.error e2) ∧
    (∀ (s l : List Nat), l ∈ listLines s → l ≠ [] ∧ l ≠ [46]) := by
  refine ⟨?_, ?_, ?_⟩
  · intro s items h
    unfold ListResponse.tryFrom at h
    cases hc : collectItems (listLines s) with
    | error e => rw [hc] at h; cases h
    | ok msgs =>
      rw [hc] at h
      cases h
      have hf := collectItems_ok_forall _ _ hc
      exact ⟨hf, hf.length_eq.symm⟩
  · intro s l e hm he
    obtain ⟨e2, h2⟩ := collectItems_mem_err _ _ _ hm he
    exact ⟨e2, by unfold ListResponse.tryFrom; rw [h2]⟩
  · intro s l hm
    unfold listLines at hm
    have := (List.mem_filter.mp hm).2
    simp at this
    exact this

theorem c5_list_reply_parsing_witness :
    (List.Forall₂ (fun l it => ItemResponse.tryFrom l = Except.ok it)
        (listLines [49, 32, 49, 50, 51, 52, 53, 13, 10, 50, 32, 50, 51, 52, 53, 13, 10, 46, 13, 10])
        [⟨1, 12345⟩, ⟨2, 2345⟩] ∧
      ([⟨1, 12345⟩, ⟨2, 2345⟩] : List ItemResponse).length =
        (listLines [49, 32, 49, 50, 51, 52, 53, 13, 10, 50, 32, 50, 51, 52, 53, 13, 10, 46, 13, 10]).length) ∧
    (∃ e2, ListResponse.tryFrom [49, 13, 10, 50] = Except.error e2) ∧
    ([49] ≠ ([] : List Nat) ∧ [49] ≠ [46]) :=
  ⟨c5_list_reply_parsing.1 _ _ (by decide),
   c5_list_reply_parsing.2.1 [49, 13, 10, 50] [49] ⟨INVALID_ITEM_MSG ++ [49]⟩ (by decide) (by decide),
   c5_list_reply_parsing.2.2 [49, 13, 10, 50] [49] (by decide)⟩

/-- Claim C6.  The Stat parser splits on a single space and requires exactly
two fields: any other field count yields `StatError` with message
`invalid stat response: <reply>`; a failed i32 parse of either field yields
the `StatError` wrapping that `ParseIntError`; two parsed fields succeed,
and in particular `2 12345` gives message count 2 and 12345 octets. -/
theorem c6_stat_parsing :
    (∀ s : List Nat, (splitOnByte 32 s).length ≠ 2 →
        StatResponse.tryFrom s = Except.error ⟨INVALID_STAT_MSG ++ s⟩) ∧
    (∀ (s a b : List Nat) (e : ParseIntError), splitOnByte 32 s = [a, b] →
        parseI32 a = Except.error e →
        StatResponse.tryFrom s = Except.error (statErrorOfParse e)) ∧
    (∀ (s a b : List Nat) (n : Int) (e : ParseIntError), splitOnByte 32 s = [a, b] →
        parseI32 a = Except.ok n → parseI32 b = Except.error e →
        StatResponse.tryFrom s = Except.error (statErrorOfParse e)) ∧
    (∀ (s a b : List Nat) (n m : Int), splitOnByte 32 s = [a, b] →
        parseI32 a = Except.ok n → parseI32 b = Except.ok m →
        StatResponse.tryFrom s = Except.ok ⟨n, m⟩) ∧
    StatResponse.tryFrom [50, 32, 49, 50, 51, 52, 53] = Except.ok ⟨2, 12345⟩ := by
  refine ⟨?_, ?_, ?_, ?_, by decide⟩
  · intro s h
    unfold StatResponse.tryFrom
    rcases hs : splitOnByte 32 s with _ | ⟨a, _ | ⟨b, _ | ⟨x, t⟩⟩⟩
    · rfl
    · rfl
    · exact absurd (by rw [hs]; rfl) h
    · rfl
  · intro s a b e hs hp
    exact statTryFrom_errA s a b e hs hp
  · intro s a b n e hs hp hq
    exact statTryFrom_errB s a b n e hs hp hq
  · intro s a b n m hs hp hq
    exact statTryFrom_ok s a b n m hs hp hq

theorem c6_stat_parsing_witness :
    StatResponse.tryFrom [97, 98, 99] = Except.error ⟨INVALID_STAT_MSG ++ [97, 98, 99]⟩ ∧
    StatResponse.tryFrom [97, 32, 49] = Except.error (statErrorOfParse ParseIntError.invalidDigit) ∧
    StatResponse.tryFrom [49, 32, 98] = Except.error (statErrorOfParse ParseIntError.invalidDigit) ∧
    StatResponse.tryFrom [49, 32, 50] = Except.ok ⟨1, 2⟩ :=
  ⟨c6_stat_parsing.1 [97, 98, 99] (by decide),
   c6_stat_parsing.2.1 [97, 32, 49] [97] [49] ParseIntError.invalidDigit (by decide) (by decide),
   c6_stat_parsing.2.2.1 [49, 32, 98] [49] [98] 1 ParseIntError.invalidDigit (by decide) (by decide)
     (by decide),
   c6_stat_parsing.2.2.2.1 [49, 32, 50] [49] [50] 1 2 (by decide) (by decide) (by decide)⟩

/-- Claim C7 (amended).  When reading the greeting fails with a server `-ERR`
(or an unexpected reply), `connect` returns a `ConnectionError` whose message
is the translated reply text itself (the `From<String>` conversion keeps the
message verbatim); the source contains no
`POP3 server for <host> is *not* ready` text. -/
theorem c7_greeting_error_propagates :
    ∀ (creds : Option (List Nat × List Nat)) (chunks : List (List Nat)) (m : List Nat)
      (rest : List (List Nat)),
      read_response chunks = Run.done (Except.error m) rest →
      connect creds chunks = ([], Run.done (Except.error ⟨m⟩) rest) := by
  intro creds chunks m rest h
  unfold connect
  rw [h]

theorem c7_greeting_error_propagates_witness :
    connect none [[45, 69, 82, 82, 32, 110, 111, 112, 101, 10]] =
      ([], Run.done (Except.error ⟨[110, 111, 112, 101]⟩) []) :=
  c7_greeting_error_propagates none _ _ _ (by decide)

/-- Claim C7, counterexample to the claim as stated.  On the `-ERR nope`
greeting, the `ConnectionError` message is the server text `nope`; it does
not even begin with `POP3 server for `, so it is not
`POP3 server for <host> is *not* ready` for any host. -/
theorem c7_greeting_message_counterexample :
    (connect none [[45, 69, 82, 82, 32, 110, 111, 112, 101, 10]]).2 =
      Run.done (Except.error ⟨[110, 111, 112, 101]⟩) [] ∧
    leadsWith [80, 79, 80, 51, 32, 115, 101, 114, 118, 101, 114, 32, 102, 111, 114, 32]
      [110, 111, 112, 101] = false := by decide

/-- Claim C9.  `retrieve_last_as_string` lists the mailbox, takes the last
listed item, sends `RETR <its id>`, and returns the retrieved body with the
`-1` sentinel message id; when the list is empty it returns a
`RetrieveError` (`no messages available`) instead. -/
theorem c9_retrieve_last :
    (∀ (c : Pop3Client) (chunks : List (List Nat)) (payload : List Nat)
        (rest : List (List Nat)) (msgs : List ItemResponse) (it : ItemResponse)
        (body : List Nat) (r2 : List (List Nat)),
        read_multi_response chunks = Run.done (Except.ok payload) rest →
        ListResponse.tryFrom payload = Except.ok ⟨msgs⟩ →
        msgs.getLast? = some it →
        read_multi_response rest = Run.done (Except.ok body) r2 →
        retrieve_last_as_string c chunks =
          ([LIST_CMD, RETR_CMD ++ intToBytes it.message_id],
            Run.done (Except.ok ⟨-1, body⟩) r2)) ∧
    (∀ (c : Pop3Client) (chunks : List (List Nat)) (payload : List Nat)
        (rest : List (List Nat)),
        read_multi_response chunks = Run.done (Except.ok payload) rest →
        ListResponse.tryFrom payload = Except.ok ⟨[]⟩ →
        retrieve_last_as_string c chunks =
          ([LIST_CMD], Run.done (Except.error ⟨NO_MESSAGES_MSG⟩) rest)) := by
  constructor
  · intro c chunks payload rest msgs it body r2 h1 h2 h3 h4
    simp [retrieve_last_as_string, list, h1, h2, h3, h4]
  · intro c chunks payload rest h1 h2
    simp [retrieve_last_as_string, list, h1, h2]

theorem c9_retrieve_last_witness :
    retrieve_last_as_string ⟨true⟩
        [[43, 79, 75, 13, 10, 49, 32, 49, 48, 48, 13, 10, 50, 32, 50, 48, 48, 13, 10, 46, 13, 10],
         [43, 79, 75, 13, 10, 98, 111, 100, 121, 13, 10, 46, 13, 10]] =
      ([LIST_CMD, RETR_CMD ++ intToBytes (2 : Int)],
        Run.done (Except.ok ⟨-1, [98, 111, 100, 121, 13, 10, 46]⟩) []) :=
  c9_retrieve_last.1 ⟨true⟩ _ [49, 32, 49, 48, 48, 13, 10, 50, 32, 50, 48, 48, 13, 10, 46]
    [[43, 79, 75, 13, 10, 98, 111, 100, 121, 13, 10, 46, 13, 10]]
    [⟨1, 100⟩, ⟨2, 200⟩] ⟨2, 200⟩ [98, 111, 100, 121, 13, 10, 46] []
    (by decide) (by decide) (by decide) (by decide)

/-- Claim C10.  Whenever a `StatResponse` is derived from a well-formed server
reply (two nonempty space-separated decimal digit fields), both the message
count and the total size are non-negative. -/
theorem c10_stat_nonnegative :
    ∀ (s : List Nat) (r : StatResponse),
      specWellFormedStatPayload s = true →
      StatResponse.tryFrom s = Except.ok r →
      0 ≤ r.number_of_message ∧ 0 ≤ r.total_size := by
  intro s r hw h
  unfold specWellFormedStatPayload at hw
  rcases hs : splitOnByte 32 s with _ | ⟨a, _ | ⟨b, _ | ⟨x, t⟩⟩⟩ <;> rw [hs] at hw
  · cases hw
  · cases hw
  · have ha : isDigits a = true := by
      have := (Bool.and_eq_true _ _).mp hw
      exact this.1
    have hb : isDigits b = true := by
      have := (Bool.and_eq_true _ _).mp hw
      exact this.2
    cases hpa : parseI32 a with
    | error e => rw [statTryFrom_errA s a b e hs hpa] at h; cases h
    | ok n =>
      cases hpb : parseI32 b with
      | error e => rw [statTryFrom_errB s a b n e hs hpa hpb] at h; cases h
      | ok m =>
        rw [statTryFrom_ok s a b n m hs hpa hpb] at h
        cases h
        constructor
        · exact parseDigitsPos_nonneg a 0 n (by rw [← parseI32_of_digits a ha]; exact hpa)
            (by omega)
        · exact parseDigitsPos_nonneg b 0 m (by rw [← parseI32_of_digits b hb]; exact hpb)
            (by omega)
  · cases hw

theorem c10_stat_nonnegative_witness :
    0 ≤ (StatResponse.mk 2 12345).number_of_message ∧
      0 ≤ (StatResponse.mk 2 12345).total_size :=
  c10_stat_nonnegative [50, 32, 49, 50, 51, 52, 53] ⟨2, 12345⟩ (by decide) (by decide)

/-- Claim C2 (amended).  For input `+OK ` ++ text ++ LF, delivered in any
chunking, where text contains no NUL, no LF and no occurrence of `+OK`,
`read_single_line` returns `Ok(trim(text))`.  (The code removes every
occurrence of `+OK` — not only the leading token — and filters NUL bytes,
which forces the two exclusions.) -/
theorem c2_single_line_ok :
    ∀ (text : List Nat) (chunks : List (List Nat)),
      0 ∉ text → 10 ∉ text →
      containsOccur OK_RESPONSE_START text = false →
      chunks.flatten = [43, 79, 75, 32] ++ text ++ [10] →
      ∃ rest, read_response chunks = Run.done (Except.ok (trim text)) rest := by
  intro text chunks h0 h10 hocc hflat
  have ht : ([43, 79, 75, 32] ++ text) ≠ [] := by simp
  have h10t : 10 ∉ [43, 79, 75, 32] ++ text := by
    intro hm
    rcases List.mem_append.mp hm with h | h
    · simp at h
    · exact h10 h
  have h0t : 0 ∉ [43, 79, 75, 32] ++ text := by
    intro hm
    rcases List.mem_append.mp hm with h | h
    · simp at h
    · exact h0 h
  obtain ⟨rest, hr⟩ := readLoop_complete ([43, 79, 75, 32] ++ text) ht h10t h0t chunks []
    (by simp [hflat]) (Or.inl ⟨[43, 79, 75, 32] ++ text, by simp⟩)
  refine ⟨rest, ?_⟩
  unfold read_response
  rw [hr]
  show Run.done (translate_string_response (([43, 79, 75, 32] ++ text) ++ [10])) rest =
    Run.done (Except.ok (trim text)) rest
  rw [translate_ok_clean text h10 hocc]

theorem c2_single_line_ok_witness :
    ∃ rest, read_response [[43, 79, 75, 32, 72, 101, 108, 108, 111, 32, 10]] =
      Run.done (Except.ok (trim [72, 101, 108, 108, 111, 32])) rest :=
  c2_single_line_ok [72, 101, 108, 108, 111, 32]
    [[43, 79, 75, 32, 72, 101, 108, 108, 111, 32, 10]]
    (by decide) (by decide) (by decide) (by decide)

/-- Claim C2, counterexample to the claim as stated.  On input `+OK +OK\n`
the text after the leading token is ` +OK`, so the claim promises
`Ok("+OK")`; the code's `replace` removes both occurrences of the token and
returns `Ok("")`. -/
theorem c2_ok_token_removed_everywhere :
    read_response [[43, 79, 75, 32, 43, 79, 75, 10]] = Run.done (Except.ok []) [] ∧
    trim [32, 43, 79, 75] = [43, 79, 75] ∧
    ([] : List Nat) ≠ [43, 79, 75] := by decide

/-- Claim C8 (amended).  For input `-ERR ` ++ msg ++ CRLF, delivered in any
chunking, where msg contains no NUL, no CR, no LF and no occurrence of
`-ERR`, `read_single_line` returns `Err(trim(msg))` — the terminating CRLF
pair is collapsed out; in particular `-ERR an error\r\n` yields
`Err("an error")`.  (The code removes every occurrence of `-ERR` and every
CRLF pair and filters NUL bytes, which forces the exclusions.) -/
theorem c8_single_line_err :
    ∀ (msg : List Nat) (chunks : List (List Nat)),
      0 ∉ msg → 10 ∉ msg → 13 ∉ msg →
      containsOccur ERR_RESPONSE_START msg = false →
      chunks.flatten = [45, 69, 82, 82, 32] ++ msg ++ [13, 10] →
      ∃ rest, read_response chunks = Run.done (Except.error (trim msg)) rest := by
  intro msg chunks h0 h10 h13 hocc hflat
  have ht : ([45, 69, 82, 82, 32] ++ msg ++ [13]) ≠ [] := by simp
  have h10t : 10 ∉ [45, 69, 82, 82, 32] ++ msg ++ [13] := by
    intro hm
    simp at hm
    exact h10 hm
  have h0t : 0 ∉ [45, 69, 82, 82, 32] ++ msg ++ [13] := by
    intro hm
    simp at hm
    exact h0 hm
  obtain ⟨rest, hr⟩ := readLoop_complete ([45, 69, 82, 82, 32] ++ msg ++ [13]) ht h10t h0t
    chunks [] (by simp [hflat]) (Or.inl ⟨[45, 69, 82, 82, 32] ++ msg ++ [13], by simp⟩)
  refine ⟨rest, ?_⟩
  unfold read_response
  rw [hr]
  show Run.done (translate_string_response (([45, 69, 82, 82, 32] ++ msg ++ [13]) ++ [10]))
      rest = Run.done (Except.error (trim msg)) rest
  rw [translate_err_clean msg h10 h13 hocc]

theorem c8_single_line_err_witness :
    ∃ rest, read_response [[45, 69, 82, 82, 32, 97, 110, 32, 101, 114, 114, 111, 114, 13, 10]] =
      Run.done (Except.error (trim [97, 110, 32, 101, 114, 114, 111, 114])) rest :=
  c8_single_line_err [97, 110, 32, 101, 114, 114, 111, 114]
    [[45, 69, 82, 82, 32, 97, 110, 32, 101, 114, 114, 111, 114, 13, 10]]
    (by decide) (by decide) (by decide) (by decide) (by decide)

/-- Claim C8, counterexample to the claim as stated.  On input
`-ERR a-ERRb\n` the server message text is `a-ERRb`, so the claim promises
`Err("a-ERRb")`; the code's `replace` removes the embedded `-ERR` too and
returns `Err("ab")`. -/
theorem c8_err_token_removed_everywhere :
    read_response [[45, 69, 82, 82, 32, 97, 45, 69, 82, 82, 98, 10]] =
      Run.done (Except.error [97, 98]) [] ∧
    trim [32, 97, 45, 69, 82, 82, 98] = [97, 45, 69, 82, 82, 98] ∧
    ([97, 98] : List Nat) ≠ [97, 45, 69, 82, 82, 98] := by decide

/-- Claim C3.  For a multi-line read whose reply begins with `+OK`: a
returned buffer always ends with `LF . LF` or `CR LF . CR LF` (the
terminator test fired); conversely, whenever the accumulated buffer
satisfies the terminator test, the loop stops at once without consuming
further chunks; and the translated `Ok` payload is nonempty and ends with
the preserved terminating `.` (46). -/
theorem c3_multi_line_termination :
    (∀ (chunks : List (List Nat)) (buf : List Nat) (rest : List (List Nat)),
        readAllLoop chunks [] = Run.done buf rest →
        leadsWith OK_RESPONSE_START buf = true →
        ends_with_sole_period_and_newline buf = some true ∧
        ∃ p, translate_string_response buf = Except.ok p ∧ p ≠ [] ∧
          p.getLast? = some 46) ∧
    (∀ (chunks : List (List Nat)) (buf : List Nat),
        ends_with_sole_period_and_newline buf = some true →
        readAllLoop chunks buf = Run.done buf chunks) := by
  constructor
  · intro chunks buf rest h hlead
    have hstop := readAllLoop_done_stop chunks [] buf rest h
    unfold multiStop at hstop
    by_cases hl3 : buf.length < 3
    · rw [if_pos hl3] at hstop
      injection hstop with hstop
      exact absurd hstop (by decide)
    · rw [if_neg hl3] at hstop
      cases he : ends_with_sole_period_and_newline buf with
      | none => rw [he] at hstop; cases hstop
      | some e =>
        rw [he] at hstop
        injection hstop with hstop
        have herr : is_err buf = false := by
          obtain ⟨u, hu⟩ := (leadsWith_iff _ _).mp hlead
          rw [hu]
          rfl
        rw [herr, Bool.or_false] at hstop
        subst hstop
        refine ⟨rfl, ?_⟩
        have hdec : (∃ a, buf = a ++ [10, 46, 10]) ∨
            (∃ a, buf = a ++ [13, 10, 46, 13, 10]) := by
          unfold ends_with_sole_period_and_newline at he
          by_cases h5 : 5 ≤ buf.length
          · rw [if_pos h5] at he
            injection he with he
            rcases Bool.or_eq_true _ _ |>.mp he with h1 | h1
            · left
              have h2 : buf.drop (buf.length - 3) = [10, 46, 10] := eq_of_beq h1
              exact ⟨buf.take (buf.length - 3),
                by rw [← h2]; exact (List.take_append_drop _ buf).symm⟩
            · right
              have h2 : buf.drop (buf.length - 5) = [13, 10, 46, 13, 10] := eq_of_beq h1
              exact ⟨buf.take (buf.length - 5),
                by rw [← h2]; exact (List.take_append_drop _ buf).symm⟩
          · rw [if_neg h5] at he
            cases he
        unfold translate_string_response
        rw [if_pos hlead]
        refine ⟨trim (replaceAll OK_RESPONSE_START [] buf), rfl, ?_⟩
        rcases hdec with ⟨a, ha⟩ | ⟨a, ha⟩
        · obtain ⟨b, hb⟩ := replaceAll_keeps_tail OK_RESPONSE_START [10, 46, 10] buf
            (by decide) (by decide) ⟨a, ha⟩
          rw [hb, show b ++ [10, 46, 10] = (b ++ [10]) ++ [46] ++ [10] by simp]
          exact trim_period_tail (b ++ [10]) [10]
            (by intro x hx; simp at hx; subst hx; decide)
        · obtain ⟨b, hb⟩ := replaceAll_keeps_tail OK_RESPONSE_START [13, 10, 46, 13, 10] buf
            (by decide) (by decide) ⟨a, ha⟩
          rw [hb, show b ++ [13, 10, 46, 13, 10] = (b ++ [13, 10]) ++ [46] ++ [13, 10] by simp]
          exact trim_period_tail (b ++ [13, 10]) [13, 10]
            (by intro x hx; simp at hx; rcases hx with h1 | h1 <;> subst h1 <;> decide)
  · intro chunks buf he
    have h5 : 5 ≤ buf.length := by
      unfold ends_with_sole_period_and_newline at he
      by_cases h : 5 ≤ buf.length
      · exact h
      · rw [if_neg h] at he
        cases he
    have hstop : multiStop buf = some true := by
      unfold multiStop
      rw [if_neg (by omega), he]
      simp
    cases chunks with
    | nil => rw [readAllLoop, hstop]
    | cons c r => rw [readAllLoop, hstop]

theorem c3_multi_line_termination_witness :
    (ends_with_sole_period_and_newline
        [43, 79, 75, 32, 83, 111, 109, 101, 32, 10, 84, 104, 105, 110, 103, 115, 32,
         13, 10, 46, 13, 10] = some true ∧
      ∃ p, translate_string_response
          [43, 79, 75, 32, 83, 111, 109, 101, 32, 10, 84, 104, 105, 110, 103, 115, 32,
           13, 10, 46, 13, 10] = Except.ok p ∧ p ≠ [] ∧ p.getLast? = some 46) ∧
    readAllLoop []
        [43, 79, 75, 32, 83, 111, 109, 101, 32, 10, 84, 104, 105, 110, 103, 115, 32,
         13, 10, 46, 13, 10] =
      Run.done
        [43, 79, 75, 32, 83, 111, 109, 101, 32, 10, 84, 104, 105, 110, 103, 115, 32,
         13, 10, 46, 13, 10] [] :=
  ⟨c3_multi_line_termination.1
      [[43, 79, 75, 32, 83, 111, 109, 101, 32, 10, 84, 104, 105, 110, 103, 115, 32,
        13, 10, 46, 13, 10]]
      [43, 79, 75, 32, 83, 111, 109, 101, 32, 10, 84, 104, 105, 110, 103, 115, 32,
       13, 10, 46, 13, 10]
      [] (by decide) (by decide),
   c3_multi_line_termination.2 []
      [43, 79, 75, 32, 83, 111, 109, 101, 32, 10, 84, 104, 105, 110, 103, 115, 32,
       13, 10, 46, 13, 10] (by decide)⟩

end Pop3
